import Mathlib

/-!
Verification of the TendrlClient message pipeline (tendrl-inc-labs/js-sdk).

Shallow embedding of `src/utils/TendrlClient.js`: the bounded in-memory
queue, the batch extractor (`getBatch`), the load-adaptive batch interval
(`calculateBatchInterval`), the `publish` entry point with its overflow
spill to offline storage, heartbeat validation (`sendHeartbeat`), the
connection monitor (`checkConnectionState`), the poll path
(`checkMessagesAPI`) and the offline replay loop
(`processOfflineMessages`).  JavaScript numbers used by the interval
arithmetic are embedded as rationals; `Date.now()` values as integers.
Asynchronous transport calls are embedded as explicit outcome arguments
(a send either succeeded or failed; a probe resolved with a status or
threw).
-/

namespace Tendrl

/-- JSON-like payload value carried in a message's `data` field.  The
client never inspects payload contents, so a flat object model suffices. -/
inductive JVal where
  | jstr : String → JVal
  | jnum : Int → JVal
  | jobj : List (String × String) → JVal
deriving DecidableEq

/-- The optional `context` object of an outbound message:
`{tags?: string[], wait?: true}`. -/
structure Context where
  tags : Option (List String) := none
  wait : Option Bool := none
deriving DecidableEq

/-- Outbound message as built by `publish` / offline replay:
`{msg_type, data, timestamp, context?, dest?}`. -/
structure Message where
  msg_type : String
  data : JVal
  timestamp : String
  context : Option Context := none
  dest : Option String := none
deriving DecidableEq

/-- Record held by the offline store: `store(msgId, message.data,
context.tags || null, 3600)` in the source. -/
structure OfflineRec where
  id : String
  data : JVal
  tags : Option (List String)
  ttl : Nat
deriving DecidableEq

/-- The client state touched by the queueing claims: the message queue,
its capacity bound, whether an offline store is configured, and the
store's contents. -/
structure ClientState where
  queue : List Message
  maxQueueSize : Nat
  storageEnabled : Bool
  offline : List OfflineRec
deriving DecidableEq

/-- Constructor state: `this.queue = []` (line 27), capacity from config. -/
def initClient (maxQueueSize : Nat) (storageEnabled : Bool) : ClientState :=
  { queue := [], maxQueueSize := maxQueueSize, storageEnabled := storageEnabled
  , offline := [] }

/-- What both spill paths persist for a message: `store(msgId,
message.data, (message.context || \x7b\x7d).tags || null, 3600)`
(lines 205-211 and 638-644). -/
def storeRecordOf (msgId : String) (m : Message) : OfflineRec :=
  { id := msgId, data := m.data, tags := m.context.bind Context.tags, ttl := 3600 }

/-- Queue insertion part of `publish` (lines 198-229): append when below
capacity, otherwise divert to the offline store when configured, else
discard with the client state untouched. -/
def publishEnqueue (st : ClientState) (message : Message) (msgId : String) : ClientState :=
  if st.queue.length < st.maxQueueSize then
    { st with queue := st.queue ++ [message] }
  else if st.storageEnabled then
    { st with offline := st.offline ++ [storeRecordOf msgId message] }
  else
    st

/-- Message construction in `publish` (lines 171-191): wrap the data,
attach `context` only when tags, waitResponse or entity are present, and
`dest` only for a non-empty entity. -/
def makeMessage (data : JVal) (tags : List String) (entity : String)
    (waitResponse : Bool) (now : String) : Message :=
  { msg_type := "publish"
  , data := data
  , timestamp := now
  , context :=
      if 0 < tags.length ∨ waitResponse = true ∨ entity ≠ "" then
        some { tags := if 0 < tags.length then some tags else none
             , wait := if waitResponse then some true else none }
      else none
  , dest := if entity ≠ "" then some entity else none }

/-- Caller-supplied first argument of `publish`: `null`/`undefined`, a
string, an object, or any other JS type (number, boolean, ...). -/
inductive PublishInput where
  | nullMsg : PublishInput
  | str : String → PublishInput
  | obj : List (String × String) → PublishInput
  | invalid : PublishInput
deriving DecidableEq

/-- `publish(msg, tags, entity, waitResponse)` (lines 157-230).  Errors
model the two synchronous throws; `waitResponse = true` bypasses the
queue (the immediate transport send leaves client state unchanged);
otherwise the message is enqueued or spilled. -/
def publish (st : ClientState) (msg : PublishInput) (tags : List String)
    (entity : String) (waitResponse : Bool) (now msgId : String) :
    Except String ClientState :=
  match msg with
  | .nullMsg => .error "Message cannot be null or undefined"
  | .invalid => .error "Invalid message type. Expected string or object."
  | .str s =>
      let m := makeMessage (JVal.jobj [("data", s)]) tags entity waitResponse now
      if waitResponse then .ok st else .ok (publishEnqueue st m msgId)
  | .obj o =>
      let m := makeMessage (JVal.jobj o) tags entity waitResponse now
      if waitResponse then .ok st else .ok (publishEnqueue st m msgId)

/-- `getBatch()` (lines 666-669): `splice(0, min(queue.length,
maxBatchSize))`, returning the removed batch and the remaining queue. -/
def getBatch (queue : List Message) (maxBatchSize : Nat) :
    List Message × List Message :=
  let batchSize := min queue.length maxBatchSize
  (queue.take batchSize, queue.drop batchSize)

/-- Repeated `getBatch` calls on a queue (the sender drains it one batch
per tick with no interleaved enqueues); `fuel` bounds the iteration. -/
def drainBatches (maxBatchSize : Nat) : Nat → List Message → List (List Message)
  | 0, _ => []
  | fuel + 1, queue =>
      if queue.isEmpty then []
      else (getBatch queue maxBatchSize).1 ::
        drainBatches maxBatchSize fuel (getBatch queue maxBatchSize).2

/-- `calculateBatchInterval()` (lines 672-682): load-adaptive interval
with strict threshold comparisons. -/
def calculateBatchInterval (queueLength maxQueueSize : Nat)
    (minBatchInterval maxBatchInterval : ℚ) : ℚ :=
  let queueLoad : ℚ := ((queueLength : ℚ) / (maxQueueSize : ℚ)) * 100
  if queueLoad < 25 then minBatchInterval
  else if queueLoad > 75 then maxBatchInterval
  else minBatchInterval + ((maxBatchInterval - minBatchInterval) * queueLoad) / 100

/-- Proof-side view of the interval as a function of the load value. -/
def intervalOfLoad (minBatchInterval maxBatchInterval load : ℚ) : ℚ :=
  if load < 25 then minBatchInterval
  else if load > 75 then maxBatchInterval
  else minBatchInterval + ((maxBatchInterval - minBatchInterval) * load) / 100

theorem calculateBatchInterval_eq (l maxQ : Nat) (a b : ℚ) :
    calculateBatchInterval l maxQ a b = intervalOfLoad a b (((l : ℚ) / (maxQ : ℚ)) * 100) := rfl

/-- The sender schedule produced by `startSender` (lines 568-628):
`setInterval(tick, this.calculateBatchInterval())` fixes the tick period
once, at registration time. -/
structure SenderSchedule where
  period : ℚ
deriving DecidableEq

/-- `startSender()`: the `setInterval` delay is `calculateBatchInterval()`
evaluated on the queue length current when `startSender` runs (line 627). -/
def startSender (queueLengthAtStart maxQueueSize : Nat)
    (minBatchInterval maxBatchInterval : ℚ) : SenderSchedule :=
  { period := calculateBatchInterval queueLengthAtStart maxQueueSize
      minBatchInterval maxBatchInterval }

/-- Absolute time of the n-th tick under `setInterval` semantics: the
callback fires `period` after registration and every `period` thereafter. -/
def tickTime (s : SenderSchedule) (startTime : ℚ) (n : Nat) : ℚ :=
  startTime + (n + 1) * s.period

/-- Argument object of `sendHeartbeat` and the `data` object it builds:
four optional numeric fields (an absent JS argument is `none`). -/
structure HeartbeatData where
  mem_free : Option ℚ := none
  mem_total : Option ℚ := none
  disk_free : Option ℚ := none
  disk_size : Option ℚ := none
deriving DecidableEq

/-- The per-field check of `sendHeartbeat` (lines 115-138): an absent
field is skipped, a negative provided value throws, otherwise the value
is copied into the heartbeat data. -/
def checkHbField (fieldName : String) (value : Option ℚ) :
    Except String (Option ℚ) :=
  match value with
  | none => .ok none
  | some v =>
      if v < 0 then .error (fieldName ++ " must be non-negative")
      else .ok (some v)

/-- Heartbeat message `{msg_type: "heartbeat", data, timestamp}`
(lines 141-145). -/
structure HeartbeatMsg where
  msg_type : String
  data : HeartbeatData
  timestamp : String
deriving DecidableEq

/-- `sendHeartbeat(args)` (lines 107-154): validate the four fields in
order, throwing on the first negative one; on success the message is
built and handed to `_publishMessage` immediately (`.ok` denotes the
message passed to the transport; `.error` is raised before any
transport call). -/
def sendHeartbeat (args : HeartbeatData) (now : String) :
    Except String HeartbeatMsg :=
  match checkHbField "mem_free" args.mem_free with
  | .error e => .error e
  | .ok mf =>
    match checkHbField "mem_total" args.mem_total with
    | .error e => .error e
    | .ok mt =>
      match checkHbField "disk_free" args.disk_free with
      | .error e => .error e
      | .ok df =>
        match checkHbField "disk_size" args.disk_size with
        | .error e => .error e
        | .ok ds =>
            .ok { msg_type := "heartbeat"
                , data := { mem_free := mf, mem_total := mt
                          , disk_free := df, disk_size := ds }
                , timestamp := now }

/-- Connection-monitor state: `_connectionState` and
`_lastConnectionCheck` (constructor lines 39-40). -/
structure ConnState where
  connectionState : Bool
  lastConnectionCheck : Int
deriving DecidableEq

/-- Constructor values: assume connected, no check performed yet. -/
def initialConnState : ConnState := { connectionState := true, lastConnectionCheck := 0 }

/-- Outcome of the reachability probe (`HEAD /entities/status`): the
fetch resolved with a status code, or it threw (network failure or the
2-second abort timeout). -/
inductive ProbeResult where
  | status : Nat → ProbeResult
  | failure : ProbeResult
deriving DecidableEq

/-- `checkConnectionState()` (lines 491-523).  Returns the reported
state, the new monitor state, and whether a probe was issued: inside the
30-second cooldown the last known state is returned untouched with no
network activity; otherwise a probe runs and its outcome
(`response.status < 500`, or `false` on failure/timeout) becomes the new
state, with the check time recorded. -/
def checkConnectionState (st : ConnState) (now : Int) (probe : ProbeResult) :
    Bool × ConnState × Bool :=
  if now < st.lastConnectionCheck + 30000 then
    (st.connectionState, st, false)
  else
    let newConn := match probe with
      | .status code => decide (code < 500)
      | .failure => false
    (newConn, { connectionState := newConn, lastConnectionCheck := now }, true)

/-- Outcome of one poll (`GET /entities/check_messages`,
`checkMessagesAPI`, lines 325-372): HTTP 204 (no content), HTTP 200 with
a message list, another HTTP status, or a thrown network error/timeout. -/
inductive PollResult where
  | noContent : PollResult
  | okMessages : List JVal → PollResult
  | httpError : Nat → PollResult
  | netError : PollResult
deriving DecidableEq

/-- Effect of `checkMessagesAPI` on `_connectionState`: 204 and non-200
statuses return early leaving the state untouched; a 200 response sets
it `true`; a thrown error sets it `false` (lines 345-371). -/
def checkMessagesAPI (connectionState : Bool) (r : PollResult) : Bool :=
  match r with
  | .noContent => connectionState
  | .okMessages _ => true
  | .httpError _ => connectionState
  | .netError => false

/-- A record as read back from the offline store during replay: its
stored strings either deserialize to a payload and optional tags
(`JSON.parse` succeeds) or the record is corrupted (`JSON.parse`
throws). -/
inductive StoredMsg where
  | ok : Nat → JVal → Option (List String) → StoredMsg
  | corrupt : Nat → StoredMsg
deriving DecidableEq

/-- Identifier of a stored record. -/
def StoredMsg.msgId : StoredMsg → Nat
  | .ok i _ _ => i
  | .corrupt i => i

/-- Whether the record deserializes. -/
def StoredMsg.deserializes : StoredMsg → Bool
  | .ok _ _ _ => true
  | .corrupt _ => false

/-- Message rebuilt from a stored record during replay (lines 725-733):
`msg_type: "publish"`, the parsed data, a fresh timestamp, and a
`context.tags` only when parsed tags are non-empty. -/
def replayMessage (data : JVal) (tags : Option (List String))
    (freshTs : String) : Message :=
  { msg_type := "publish"
  , data := data
  , timestamp := freshTs
  , context :=
      match tags with
      | some ts => if 0 < ts.length then some { tags := some ts, wait := none } else none
      | none => none
  , dest := none }

/-- The per-page conversion loop of `processOfflineMessages`
(lines 718-744): every record's id is marked for deletion; records that
deserialize additionally contribute a rebuilt message to the batch. -/
def pageConvert (freshTs : String) : List StoredMsg → List Message × List Nat
  | [] => ([], [])
  | .ok i d tags :: rest =>
      let r := pageConvert freshTs rest
      (replayMessage d tags freshTs :: r.1, i :: r.2)
  | .corrupt i :: rest =>
      let r := pageConvert freshTs rest
      (r.1, i :: r.2)

/-- One iteration of the replay `while` loop for a page whose batch send
outcome is `sendOK` (lines 747-777): if the page yielded messages, a
successful send deletes the marked ids and continues, a failed send
deletes nothing and aborts the run; if the page yielded no messages
(all corrupted), the marked ids are deleted and the run stops.  Returns
the deleted ids and whether the loop continues. -/
def replayPageStep (page : List StoredMsg) (sendOK : Bool)
    (freshTs : String) : List Nat × Bool :=
  let c := pageConvert freshTs page
  if 0 < c.1.length then
    if sendOK then (c.2, true) else ([], false)
  else
    (c.2, false)

/-- The whole replay run over successive pages with their send outcomes:
all ids deleted from the store, accumulated until a step aborts. -/
def processOfflineLoop (freshTs : String) :
    List (List StoredMsg) → List Bool → List Nat
  | [], _ => []
  | _ :: _, [] => []
  | page :: rest, sendOK :: results =>
      let s := replayPageStep page sendOK freshTs
      if s.2 then s.1 ++ processOfflineLoop freshTs rest results else s.1

theorem intervalOfLoad_mono (a b : ℚ) (hab : a ≤ b) (l1 l2 : ℚ)
    (hl : l1 ≤ l2) : intervalOfLoad a b l1 ≤ intervalOfLoad a b l2 := by
  have hba : (0:ℚ) ≤ b - a := sub_nonneg.mpr hab
  unfold intervalOfLoad
  split_ifs with h1 h2 h3 h4 h5 h6 h7 h8 <;>
    first
      | rfl
      | linarith
      | nlinarith [hba, mul_le_mul_of_nonneg_left hl hba]

theorem intervalOfLoad_lo (a b load : ℚ) (h : load < 25) :
    intervalOfLoad a b load = a := by
  unfold intervalOfLoad
  rw [if_pos h]

theorem intervalOfLoad_hi (a b load : ℚ) (h : 75 < load) :
    intervalOfLoad a b load = b := by
  unfold intervalOfLoad
  rw [if_neg (by linarith), if_pos h]

/-- C1 (amended): with `minBatchInterval ≤ maxBatchInterval` and a
positive `maxQueueSize`, the computed batch interval is monotonically
non-decreasing in the queue length, equals `minBatchInterval` whenever
the load is strictly below 25, and equals `maxBatchInterval` whenever
the load is strictly above 75 (the thresholds are strict: at load
exactly 25 or 75 the linear interpolation applies). -/
theorem calculateBatchInterval_adaptive (maxQ : Nat) (hQ : 0 < maxQ)
    (a b : ℚ) (hab : a ≤ b) :
    (∀ l1 l2 : Nat, l1 ≤ l2 →
        calculateBatchInterval l1 maxQ a b ≤ calculateBatchInterval l2 maxQ a b) ∧
    (∀ l : Nat, ((l : ℚ) / (maxQ : ℚ)) * 100 < 25 →
        calculateBatchInterval l maxQ a b = a) ∧
    (∀ l : Nat, 75 < ((l : ℚ) / (maxQ : ℚ)) * 100 →
        calculateBatchInterval l maxQ a b = b) := by
  refine ⟨?_, ?_, ?_⟩
  · intro l1 l2 h12
    rw [calculateBatchInterval_eq, calculateBatchInterval_eq]
    apply intervalOfLoad_mono a b hab
    have hq : (0:ℚ) < (maxQ : ℚ) := by exact_mod_cast hQ
    have hc : (l1 : ℚ) ≤ (l2 : ℚ) := by exact_mod_cast h12
    have := (div_le_div_iff_of_pos_right hq).mpr hc
    nlinarith
  · intro l hl
    rw [calculateBatchInterval_eq]
    exact intervalOfLoad_lo _ _ _ hl
  · intro l hl
    rw [calculateBatchInterval_eq]
    exact intervalOfLoad_hi _ _ _ hl

/-- C1 witness: with the default configuration, queue length 100
(load 10) yields the minimum interval, queue length 800 (load 80) the
maximum, and the former is at most the latter. -/
theorem calculateBatchInterval_adaptive_witness :
    calculateBatchInterval 100 1000 100 1000 ≤ calculateBatchInterval 800 1000 100 1000 ∧
    calculateBatchInterval 100 1000 100 1000 = 100 ∧
    calculateBatchInterval 800 1000 100 1000 = 1000 := by
  obtain ⟨h1, h2, h3⟩ := calculateBatchInterval_adaptive 1000 (by norm_num) 100 1000 (by norm_num)
  exact ⟨h1 100 800 (by norm_num), h2 100 (by norm_num), h3 800 (by norm_num)⟩

/-- C1 counterexample: at queue length 250 of capacity 1000 the load is
exactly 25, yet with the default intervals (100 ms/1000 ms) the code
returns the interpolated 325 ms, not `minBatchInterval = 100` as the
claim's `load ≤ 25` clause requires. -/
theorem calculateBatchInterval_at_load25 :
    ((250 : ℚ) / (1000 : ℚ)) * 100 = 25 ∧
    calculateBatchInterval 250 1000 100 1000 = 325 ∧
    (325 : ℚ) ≠ 100 := by
  refine ⟨by norm_num, ?_, by norm_num⟩
  norm_num [calculateBatchInterval]

theorem drainBatches_flatten (mbs : Nat) (hm : 0 < mbs) :
    ∀ fuel q, q.length ≤ fuel → (drainBatches mbs fuel q).flatten = q := by
  intro fuel
  induction fuel with
  | zero =>
      intro q hq
      have : q = [] := List.eq_nil_of_length_eq_zero (Nat.le_zero.mp hq)
      subst this
      rfl
  | succ n ih =>
      intro q hq
      by_cases hqe : q.isEmpty
      · have : q = [] := List.isEmpty_iff.mp hqe
        subst this
        rfl
      · have hql : 0 < q.length := by
          cases q with
          | nil => simp at hqe
          | cons a t => simp
        rw [drainBatches, if_neg (by simp [hqe])]
        rw [List.flatten_cons, ih]
        · exact List.take_append_drop _ _
        · rw [getBatch]
          simp only [List.length_drop]
          omega

/-- C2: `getBatch` removes and returns exactly the first
`min(length, maxBatchSize)` queued messages in FIFO order, leaves the
remainder in place in order (batch ++ remainder = queue), and draining
the queue by repeated `getBatch` calls yields batches whose
concatenation is exactly the original enqueue order, so no message is
shared between two calls. -/
theorem getBatch_fifo (q : List Message) (mbs : Nat) :
    (getBatch q mbs).1 = q.take (min q.length mbs) ∧
    (getBatch q mbs).2 = q.drop (min q.length mbs) ∧
    (getBatch q mbs).1 ++ (getBatch q mbs).2 = q ∧
    (getBatch q mbs).1.length = min q.length mbs ∧
    (∀ fuel, 0 < mbs → q.length ≤ fuel →
        (drainBatches mbs fuel q).flatten = q) := by
  refine ⟨rfl, rfl, List.take_append_drop _ _, ?_, ?_⟩
  · rw [getBatch]
    simp only [List.length_take]
    omega
  · intro fuel hm hf
    exact drainBatches_flatten mbs hm fuel q hf

/-- Concrete messages used by witnesses. -/
def msgA : Message := { msg_type := "publish", data := JVal.jstr "a", timestamp := "t0" }

/-- Concrete messages used by witnesses. -/
def msgB : Message := { msg_type := "publish", data := JVal.jstr "b", timestamp := "t1" }

/-- Concrete messages used by witnesses. -/
def msgC : Message := { msg_type := "publish", data := JVal.jstr "c", timestamp := "t2" }

/-- C2 witness: draining a three-message queue with `maxBatchSize = 2`
reproduces the enqueue order. -/
theorem getBatch_fifo_witness :
    (drainBatches 2 3 [msgA, msgB, msgC]).flatten = [msgA, msgB, msgC] :=
  (getBatch_fifo [msgA, msgB, msgC] 2).2.2.2.2 3 (by decide) (by decide)

/-- C6 (code evidence): `startSender` passes `calculateBatchInterval()`
to `setInterval` once, so every inter-tick gap equals the interval
computed from the queue length at start time (here 0, giving 100 ms),
even though the adaptive interval at a later load of 80% (queue length
800 of 1000) is 1000 ms — the tick period never drifts with load. -/
theorem sender_period_fixed :
    (∀ (t0 : ℚ) (n : Nat),
        tickTime (startSender 0 1000 100 1000) t0 (n + 1) -
          tickTime (startSender 0 1000 100 1000) t0 n = 100) ∧
    calculateBatchInterval 800 1000 100 1000 = 1000 ∧
    ((100 : ℚ) ≠ 1000) := by
  refine ⟨?_, by norm_num [calculateBatchInterval], by norm_num⟩
  intro t0 n
  have hp : (startSender 0 1000 100 1000).period = 100 := by
    norm_num [startSender, calculateBatchInterval]
  simp only [tickTime, hp]
  push_cast
  ring

/-- C3: the queue-capacity invariant.  The constructor starts with an
empty queue; `publish`'s enqueue step preserves `length ≤ maxQueueSize`;
`getBatch` (the only queue mutation of a sender tick) never grows the
queue; an insertion into a full queue leaves the queue exactly as it
was (the message is diverted or discarded, never overwriting a queued
message); and in general the enqueue step either leaves the queue
unchanged or appends the new message at the back. -/
theorem queue_bound_invariant :
    (∀ maxQ stor, (initClient maxQ stor).queue.length ≤ maxQ) ∧
    (∀ st m msgId, st.queue.length ≤ st.maxQueueSize →
        (publishEnqueue st m msgId).queue.length ≤
          (publishEnqueue st m msgId).maxQueueSize) ∧
    (∀ q mbs, ((getBatch q mbs).2).length ≤ q.length) ∧
    (∀ st m msgId, st.maxQueueSize ≤ st.queue.length →
        (publishEnqueue st m msgId).queue = st.queue) ∧
    (∀ st m msgId, st.maxQueueSize ≤ st.queue.length → st.storageEnabled = true →
        (publishEnqueue st m msgId).offline = st.offline ++ [storeRecordOf msgId m]) ∧
    (∀ st m msgId, (publishEnqueue st m msgId).queue = st.queue ∨
        (publishEnqueue st m msgId).queue = st.queue ++ [m]) := by
  refine ⟨?_, ?_, ?_, ?_, ?_, ?_⟩
  · intro maxQ stor
    simp [initClient]
  · intro st m msgId h
    unfold publishEnqueue
    split_ifs with h1 h2 <;> first | exact h | (simp; omega)
  · intro q mbs
    rw [getBatch]
    simp only [List.length_drop]
    omega
  · intro st m msgId h
    unfold publishEnqueue
    split_ifs with h1 h2 <;> first | omega | rfl
  · intro st m msgId h hst
    unfold publishEnqueue
    split_ifs with h1 <;> first | omega | rfl
  · intro st m msgId
    unfold publishEnqueue
    split_ifs <;> simp

/-- Full two-message client state used by witnesses. -/
def stFull : ClientState :=
  { queue := [msgA, msgB], maxQueueSize := 2, storageEnabled := false, offline := [] }

/-- C3 witness: enqueueing into a below-capacity queue keeps the bound,
and enqueueing into a full queue (no offline store) leaves the queue
untouched. -/
theorem queue_bound_invariant_witness :
    (publishEnqueue (initClient 2 false) msgA "id0").queue.length ≤
      (publishEnqueue (initClient 2 false) msgA "id0").maxQueueSize ∧
    (publishEnqueue stFull msgC "id1").queue = stFull.queue :=
  ⟨queue_bound_invariant.2.1 (initClient 2 false) msgA "id0" (by decide),
   queue_bound_invariant.2.2.2.1 stFull msgC "id1" (by decide)⟩

theorem publishEnqueue_cases (st : ClientState) (m : Message) (msgId : String) :
    (st.queue.length < st.maxQueueSize →
        (publishEnqueue st m msgId).queue.length = st.queue.length + 1) ∧
    (st.maxQueueSize ≤ st.queue.length → st.storageEnabled = false →
        publishEnqueue st m msgId = st) := by
  constructor
  · intro h
    unfold publishEnqueue
    rw [if_pos h]
    simp
  · intro h hs
    unfold publishEnqueue
    rw [if_neg (by omega), hs]
    rfl

/-- C4: for every valid message (a string or an object) published with
`waitResponse = false`, `publish` does not throw: it returns a new state
that has exactly one more queued message when the queue was below
capacity, and is completely unchanged when the queue was full and no
offline store is configured. -/
theorem publish_safe (st : ClientState) (tags : List String) (entity : String)
    (now msgId : String) (msg : PublishInput)
    (hv : (∃ s, msg = PublishInput.str s) ∨ (∃ o, msg = PublishInput.obj o)) :
    ∃ st2, publish st msg tags entity false now msgId = .ok st2 ∧
      (st.queue.length < st.maxQueueSize →
          st2.queue.length = st.queue.length + 1) ∧
      (st.maxQueueSize ≤ st.queue.length → st.storageEnabled = false →
          st2 = st) := by
  rcases hv with ⟨s, rfl⟩ | ⟨o, rfl⟩ <;>
    exact ⟨publishEnqueue st _ msgId, rfl,
      (publishEnqueue_cases st _ msgId).1, (publishEnqueue_cases st _ msgId).2⟩

/-- C4 witness: publishing a string into an empty two-slot client
succeeds and grows the queue by one; publishing into the full client
with no offline store succeeds and changes nothing. -/
theorem publish_safe_witness :
    (∃ st2, publish (initClient 2 false) (PublishInput.str "hello") [] "" false "t" "id" = .ok st2 ∧
      ((initClient 2 false).queue.length < (initClient 2 false).maxQueueSize →
          st2.queue.length = (initClient 2 false).queue.length + 1) ∧
      ((initClient 2 false).maxQueueSize ≤ (initClient 2 false).queue.length →
          (initClient 2 false).storageEnabled = false → st2 = initClient 2 false)) ∧
    (∃ st2, publish stFull (PublishInput.obj [("k", "v")]) [] "" false "t" "id" = .ok st2 ∧
      (stFull.queue.length < stFull.maxQueueSize →
          st2.queue.length = stFull.queue.length + 1) ∧
      (stFull.maxQueueSize ≤ stFull.queue.length → stFull.storageEnabled = false →
          st2 = stFull)) :=
  ⟨publish_safe (initClient 2 false) [] "" "t" "id" (PublishInput.str "hello")
      (Or.inl ⟨"hello", rfl⟩),
   publish_safe stFull [] "" "t" "id" (PublishInput.obj [("k", "v")])
      (Or.inr ⟨[("k", "v")], rfl⟩)⟩

theorem pageConvert_mem_delete (ts : String) (page : List StoredMsg) :
    ∀ sm ∈ page, StoredMsg.msgId sm ∈ (pageConvert ts page).2 := by
  induction page with
  | nil => simp
  | cons hd tl ih =>
      intro sm hsm
      rcases List.mem_cons.mp hsm with rfl | htl
      · cases sm <;> simp [pageConvert, StoredMsg.msgId]
      · cases hd <;> simpa [pageConvert] using Or.inr (ih sm htl)

theorem pageConvert_toSend_pos (ts : String) (page : List StoredMsg)
    (h : ∃ sm ∈ page, sm.deserializes = true) :
    0 < (pageConvert ts page).1.length := by
  induction page with
  | nil => simp at h
  | cons hd tl ih =>
      rcases h with ⟨sm, hsm, hd2⟩
      rcases List.mem_cons.mp hsm with rfl | htl
      · cases sm with
        | ok i d tags => simp [pageConvert]
        | corrupt i => simp [StoredMsg.deserializes] at hd2
      · cases hd with
        | ok i d tags => simp [pageConvert]
        | corrupt i =>
            simpa [pageConvert] using ih ⟨sm, htl, hd2⟩

theorem pageConvert_toSend_nil (ts : String) (page : List StoredMsg)
    (h : ∀ sm ∈ page, sm.deserializes = false) :
    (pageConvert ts page).1 = [] := by
  induction page with
  | nil => rfl
  | cons hd tl ih =>
      cases hd with
      | ok i d tags =>
          have := h (.ok i d tags) (List.mem_cons_self _ _)
          simp [StoredMsg.deserializes] at this
      | corrupt i =>
          simpa [pageConvert] using ih fun sm hsm => h sm (List.mem_cons_of_mem _ hsm)

theorem replayPageStep_sendOK (page : List StoredMsg) (ts : String) :
    (replayPageStep page true ts).1 = (pageConvert ts page).2 := by
  by_cases h : 0 < (pageConvert ts page).1.length <;> simp [replayPageStep, h]

/-- C5 (amended): per replay page, every record's id is deleted when the
page's batch send succeeds; when the send fails, no record of the page
is deleted — not even a corrupted one, so "corrupted records are always
deleted" holds only for pages whose send succeeds or that contain no
sendable record at all; a page of only corrupted records has all its
ids deleted; and a replay run whose first page fails deletes nothing at
all. -/
theorem replay_delete_policy (page : List StoredMsg) (ts : String) :
    (∀ sm ∈ page, StoredMsg.msgId sm ∈ (replayPageStep page true ts).1) ∧
    ((∃ sm ∈ page, sm.deserializes = true) →
        (replayPageStep page false ts).1 = []) ∧
    ((∀ sm ∈ page, sm.deserializes = false) →
        ∀ sm ∈ page, StoredMsg.msgId sm ∈ (replayPageStep page false ts).1) ∧
    (∀ rest results, (∃ sm ∈ page, sm.deserializes = true) →
        processOfflineLoop ts (page :: rest) (false :: results) = []) := by
  refine ⟨?_, ?_, ?_, ?_⟩
  · intro sm hsm
    rw [replayPageStep_sendOK]
    exact pageConvert_mem_delete ts page sm hsm
  · intro h
    unfold replayPageStep
    rw [if_pos (pageConvert_toSend_pos ts page h)]
    rfl
  · intro h sm hsm
    unfold replayPageStep
    rw [if_neg (by rw [pageConvert_toSend_nil ts page h]; simp)]
    exact pageConvert_mem_delete ts page sm hsm
  · intro rest results h
    unfold processOfflineLoop
    have hstep : replayPageStep page false ts = ([], false) := by
      unfold replayPageStep
      rw [if_pos (pageConvert_toSend_pos ts page h)]
      rfl
    rw [hstep]
    rfl

/-- C5 witness: a successfully sent page has its record deleted; a page
whose send failed keeps its record; an all-corrupted page is purged. -/
theorem replay_delete_policy_witness :
    ((1 : Nat) ∈ (replayPageStep [StoredMsg.ok 1 (JVal.jstr "x") none] true "t").1) ∧
    ((replayPageStep [StoredMsg.ok 2 (JVal.jstr "y") none] false "t").1 = []) ∧
    ((3 : Nat) ∈ (replayPageStep [StoredMsg.corrupt 3] false "t").1) :=
  ⟨(replay_delete_policy [StoredMsg.ok 1 (JVal.jstr "x") none] "t").1
      (StoredMsg.ok 1 (JVal.jstr "x") none) (by simp),
   (replay_delete_policy [StoredMsg.ok 2 (JVal.jstr "y") none] "t").2.1
      ⟨StoredMsg.ok 2 (JVal.jstr "y") none, by simp, rfl⟩,
   (replay_delete_policy [StoredMsg.corrupt 3] "t").2.2.1
      (by intro sm hsm; rcases List.mem_singleton.mp hsm with rfl; rfl)
      (StoredMsg.corrupt 3) (by simp)⟩

/-- C5 counterexample: a page holding one valid record and one corrupted
record whose batch send fails deletes nothing — the corrupted record
(id 1) is NOT deleted, contradicting the claim that a record failing to
deserialize is always deleted. -/
theorem replay_corrupt_record_kept :
    StoredMsg.corrupt 1 ∈
      [StoredMsg.ok 0 (JVal.jstr "x") none, StoredMsg.corrupt 1] ∧
    (StoredMsg.corrupt 1).deserializes = false ∧
    processOfflineLoop "t"
      [[StoredMsg.ok 0 (JVal.jstr "x") none, StoredMsg.corrupt 1]] [false] = [] := by
  refine ⟨by simp, rfl, rfl⟩

theorem checkHbField_ok (fieldName : String) (v : Option ℚ)
    (h : ∀ x, v = some x → 0 ≤ x) : checkHbField fieldName v = .ok v := by
  cases v with
  | none => rfl
  | some x => simp [checkHbField, not_lt.mpr (h x rfl)]

theorem checkHbField_neg (fieldName : String) (x : ℚ) (h : x < 0) :
    checkHbField fieldName (some x) =
      .error (fieldName ++ " must be non-negative") := by
  simp [checkHbField, h]

/-- C7: `sendHeartbeat` rejects with a validation error — before any
transport call — whenever some provided field is negative, and when all
provided fields are non-negative it raises no error and hands the
heartbeat message (with exactly the provided fields) to the transport
immediately. -/
theorem sendHeartbeat_validation (args : HeartbeatData) (now : String) :
    ((∃ x : ℚ, x < 0 ∧ (args.mem_free = some x ∨ args.mem_total = some x ∨
        args.disk_free = some x ∨ args.disk_size = some x)) →
      ∃ e, sendHeartbeat args now = .error e) ∧
    ((∀ x, args.mem_free = some x → 0 ≤ x) →
     (∀ x, args.mem_total = some x → 0 ≤ x) →
     (∀ x, args.disk_free = some x → 0 ≤ x) →
     (∀ x, args.disk_size = some x → 0 ≤ x) →
      sendHeartbeat args now =
        .ok { msg_type := "heartbeat", data := args, timestamp := now }) := by
  constructor
  · rintro ⟨x, hx, h | h | h | h⟩
    · unfold sendHeartbeat
      rw [h, checkHbField_neg _ _ hx]
      exact ⟨_, rfl⟩
    · unfold sendHeartbeat
      cases hmf : checkHbField "mem_free" args.mem_free with
      | error e => exact ⟨e, rfl⟩
      | ok mf =>
          rw [h, checkHbField_neg _ _ hx]
          exact ⟨_, rfl⟩
    · unfold sendHeartbeat
      cases hmf : checkHbField "mem_free" args.mem_free with
      | error e => exact ⟨e, rfl⟩
      | ok mf =>
          cases hmt : checkHbField "mem_total" args.mem_total with
          | error e => exact ⟨e, rfl⟩
          | ok mt =>
              rw [h, checkHbField_neg _ _ hx]
              exact ⟨_, rfl⟩
    · unfold sendHeartbeat
      cases hmf : checkHbField "mem_free" args.mem_free with
      | error e => exact ⟨e, rfl⟩
      | ok mf =>
          cases hmt : checkHbField "mem_total" args.mem_total with
          | error e => exact ⟨e, rfl⟩
          | ok mt =>
              cases hdf : checkHbField "disk_free" args.disk_free with
              | error e => exact ⟨e, rfl⟩
              | ok df =>
                  rw [h, checkHbField_neg _ _ hx]
                  exact ⟨_, rfl⟩
  · intro h1 h2 h3 h4
    unfold sendHeartbeat
    rw [checkHbField_ok _ _ h1, checkHbField_ok _ _ h2,
      checkHbField_ok _ _ h3, checkHbField_ok _ _ h4]

/-- C7 witness: a negative `mem_free` is rejected; an argument object
with `mem_free = 5` and `disk_size = 0` (others absent) is accepted and
sent as-is. -/
theorem sendHeartbeat_validation_witness :
    (∃ e, sendHeartbeat { mem_free := some (-1) } "t" = .error e) ∧
    sendHeartbeat { mem_free := some 5, disk_size := some 0 } "t" =
      .ok { msg_type := "heartbeat"
          , data := { mem_free := some 5, disk_size := some 0 }
          , timestamp := "t" } :=
  ⟨(sendHeartbeat_validation { mem_free := some (-1) } "t").1
      ⟨-1, by norm_num, Or.inl rfl⟩,
   (sendHeartbeat_validation { mem_free := some 5, disk_size := some 0 } "t").2
      (by intro x h; cases h; norm_num)
      (by intro x h; cases h)
      (by intro x h; cases h)
      (by intro x h; cases h; norm_num)⟩

/-- C8: the connection monitor starts `Reachable`; a call inside the
30-second cooldown returns the last known state, leaves the monitor
unchanged and issues no probe; once the cooldown has elapsed a probe is
issued and its outcome becomes the state (a resolved status below 500
sets `Reachable`, a failure or timeout sets `Unreachable`); and after a
probing call at time `t`, every further call before `t + 30000` issues
no probe and leaves the state unchanged — at most one probe per
cooldown window. -/
theorem connection_monitor_cooldown :
    initialConnState.connectionState = true ∧
    (∀ st now probe, now < st.lastConnectionCheck + 30000 →
        checkConnectionState st now probe = (st.connectionState, st, false)) ∧
    (∀ st now code, st.lastConnectionCheck + 30000 ≤ now → code < 500 →
        checkConnectionState st now (.status code) =
          (true, { connectionState := true, lastConnectionCheck := now }, true)) ∧
    (∀ st now, st.lastConnectionCheck + 30000 ≤ now →
        checkConnectionState st now .failure =
          (false, { connectionState := false, lastConnectionCheck := now }, true)) ∧
    (∀ st now probe now2 probe2,
        st.lastConnectionCheck + 30000 ≤ now → now2 < now + 30000 →
        (checkConnectionState (checkConnectionState st now probe).2.1 now2 probe2).2.2 = false ∧
        (checkConnectionState (checkConnectionState st now probe).2.1 now2 probe2).2.1 =
          (checkConnectionState st now probe).2.1 ∧
        (checkConnectionState (checkConnectionState st now probe).2.1 now2 probe2).1 =
          (checkConnectionState st now probe).2.1.connectionState) := by
  refine ⟨rfl, ?_, ?_, ?_, ?_⟩
  · intro st now probe h
    unfold checkConnectionState
    rw [if_pos h]
  · intro st now code h hc
    unfold checkConnectionState
    rw [if_neg (not_lt.mpr h)]
    simp [hc]
  · intro st now h
    unfold checkConnectionState
    rw [if_neg (not_lt.mpr h)]
  · intro st now probe now2 probe2 h h2
    have hfst : (checkConnectionState st now probe).2.1.lastConnectionCheck = now := by
      unfold checkConnectionState
      rw [if_neg (not_lt.mpr h)]
    set st1 := (checkConnectionState st now probe).2.1 with hst1
    have hsnd : checkConnectionState st1 now2 probe2 = (st1.connectionState, st1, false) := by
      unfold checkConnectionState
      rw [if_pos (by rw [hfst]; exact h2)]
    rw [hsnd]
    exact ⟨rfl, rfl, rfl⟩

/-- C8 witness: the monitor built at time 0 answers a call at time 5
from cache without probing; at time 30000 it probes (status 200 keeps
`Reachable`); a second call at 40000 after a probing call at 30000
issues no probe. -/
theorem connection_monitor_cooldown_witness :
    checkConnectionState initialConnState 5 ProbeResult.failure =
      (true, initialConnState, false) ∧
    checkConnectionState initialConnState 30000 (ProbeResult.status 200) =
      (true, { connectionState := true, lastConnectionCheck := 30000 }, true) ∧
    (checkConnectionState
        (checkConnectionState initialConnState 30000 (ProbeResult.status 503)).2.1
        40000 ProbeResult.failure).2.2 = false :=
  ⟨(connection_monitor_cooldown.2.1 initialConnState 5 ProbeResult.failure
      (by decide)).trans rfl,
   connection_monitor_cooldown.2.2.1 initialConnState 30000 200 (by decide) (by decide),
   (connection_monitor_cooldown.2.2.2.2 initialConnState 30000 (ProbeResult.status 503)
      40000 ProbeResult.failure (by decide) (by decide)).1⟩

/-- C9 counterexample: when the monitor currently believes the endpoint
`Unreachable`, an empty (HTTP 204 "no content") poll result leaves
`_connectionState` untouched — still `Unreachable`, not `Reachable` as
the claim states (the early `return` at line 347 skips the
`_connectionState = true` assignment at line 365). -/
theorem poll_noContent_keeps_unreachable :
    checkMessagesAPI false PollResult.noContent = false ∧
    checkMessagesAPI false PollResult.noContent ≠ true := ⟨rfl, by decide⟩

/-- C9 (amended): an empty/no-content (204) poll leaves the connection
state unchanged (in particular it stays `Unreachable` if it was); a
successful poll (HTTP 200) sets `Reachable`; a thrown poll error sets
`Unreachable` regardless of the prior state (rather than leaving it
unchanged); a non-200/204 HTTP status leaves the state unchanged. -/
theorem poll_state_effects :
    (∀ s, checkMessagesAPI s PollResult.noContent = s) ∧
    (∀ s msgs, checkMessagesAPI s (PollResult.okMessages msgs) = true) ∧
    (∀ s, checkMessagesAPI s PollResult.netError = false) ∧
    (∀ s c, checkMessagesAPI s (PollResult.httpError c) = s) :=
  ⟨fun _ => rfl, fun _ _ => rfl, fun _ => rfl, fun _ _ => rfl⟩

/-- Message obtained by spilling a message to the offline store and
replaying the stored record with a fresh timestamp. -/
def spillThenReplay (msgId freshTs : String) (m : Message) : Message :=
  replayMessage (storeRecordOf msgId m).data (storeRecordOf msgId m).tags freshTs

/-- C10: for any message built by `publish` and spilled (queue-overflow
or sender-tick path, both of which persist only `data` and
`context.tags`), the replayed message has `msg_type "publish"`, the
original data exactly, the fresh timestamp, no `dest` and no
`context.wait`; the original message carried timestamp `now`, its
`dest` iff an entity was given and `context.wait` iff waitResponse was
set — none of which survive the round-trip — while `context.tags`
round-trips exactly. -/
theorem spill_replay_roundtrip (data0 : JVal) (tagsL : List String)
    (entity : String) (w : Bool) (now msgId freshTs : String) :
    (spillThenReplay msgId freshTs (makeMessage data0 tagsL entity w now)).msg_type = "publish" ∧
    (spillThenReplay msgId freshTs (makeMessage data0 tagsL entity w now)).data =
      (makeMessage data0 tagsL entity w now).data ∧
    (spillThenReplay msgId freshTs (makeMessage data0 tagsL entity w now)).timestamp = freshTs ∧
    (makeMessage data0 tagsL entity w now).timestamp = now ∧
    (spillThenReplay msgId freshTs (makeMessage data0 tagsL entity w now)).dest = none ∧
    (makeMessage data0 tagsL entity w now).dest =
      (if entity ≠ "" then some entity else none) ∧
    ((spillThenReplay msgId freshTs (makeMessage data0 tagsL entity w now)).context.bind
        Context.wait) = none ∧
    ((makeMessage data0 tagsL entity w now).context.bind Context.wait) =
      (if w then some true else none) ∧
    ((spillThenReplay msgId freshTs (makeMessage data0 tagsL entity w now)).context.bind
        Context.tags) =
      ((makeMessage data0 tagsL entity w now).context.bind Context.tags) := by
  have hmk : (makeMessage data0 tagsL entity w now).context.bind Context.tags =
      (if 0 < tagsL.length then some tagsL else none) := by
    unfold makeMessage
    by_cases hc : 0 < tagsL.length ∨ w = true ∨ entity ≠ ""
    · rw [if_pos hc]
      rfl
    · rw [if_neg hc]
      push_neg at hc
      simp [Nat.not_lt.mpr hc.1]
  have hwk : (makeMessage data0 tagsL entity w now).context.bind Context.wait =
      (if w then some true else none) := by
    unfold makeMessage
    by_cases hc : 0 < tagsL.length ∨ w = true ∨ entity ≠ ""
    · rw [if_pos hc]
      rfl
    · rw [if_neg hc]
      push_neg at hc
      simp [hc.2.1]
  refine ⟨?_, ?_, ?_, rfl, ?_, ?_, ?_, hwk, ?_⟩
  · rfl
  · rfl
  · rfl
  · rfl
  · unfold makeMessage
    by_cases he : entity ≠ "" <;> simp [he]
  · unfold spillThenReplay replayMessage storeRecordOf
    rw [hmk]
    by_cases ht : 0 < tagsL.length <;> simp [ht]
  · unfold spillThenReplay replayMessage storeRecordOf
    rw [hmk]
    by_cases ht : 0 < tagsL.length <;> simp [ht]

end Tendrl
